import Mathlib

/-!
# Verification of the data_mapping rule engine, profiler, advisor and inferencer

Shallow embedding of `src/data_mapper.py`. Cells are tagged values
(text / integer number / absent, where absent models a missing cell, pandas `NaN`).
A dataset is an ordered list of named columns, mirroring a `pandas.DataFrame`
(column order preserved; assigning to an existing column replaces its values
in place, assigning to a new name appends it on the right).

The per-value transform semantics follow pandas:
* the `.str` accessor first validates the column's inferred (NaN-skipped)
  type and raises `AttributeError: Can only use .str accessor with string
  values!` on a purely numeric column (int64, or float64 with a present
  number); on a column that passes — one holding a text value, or holding
  no present value at all — its methods (`upper`, `lower`, `[:3]`, `[0]`,
  `split('@').str[0]`) map a missing cell to a missing cell and a
  non-string element to a missing cell;
* `Series.apply(f)` runs the plain Python function `f` on every element,
  including missing cells (`NaN`), so `extract_domain` raises a `TypeError`
  on a missing cell (`'@' in nan`), while `age_category` returns `'Senior'`
  on a missing cell because `nan < 30` and `nan < 45` are both false;
* Python's `str.split(sep)` splits on every occurrence of the separator and
  `''.split(sep)` is `['']`.

File reading/writing and path validation are out of scope: the embedded
engine takes the in-memory dataset and mapping table directly.
-/

/-- A cell value: text, an (integer) number, or a missing cell (pandas `NaN`). -/
inductive Value where
  | text (s : String)
  | num (n : Int)
  | absent
deriving DecidableEq, Repr

/-- An ordered dataset: named columns in order, as in a `pandas.DataFrame`. -/
abbrev Dataset := List (String × List Value)

/-- One row of the mapping configuration table. -/
structure MappingRule where
  source_field : String
  target_field : String
  transform_rule : String
deriving DecidableEq, Repr

/-- Errors the embedded engine can raise: `missingSourceField f` models the
`KeyError` raised by `input_data[f]` when column `f` does not exist (the
error names the missing key); `typeError fn` models the Python `TypeError`
escaping from the helper `fn` inside `Series.apply`; `attributeError`
models the `AttributeError` the pandas `.str` accessor raises when the
column's inferred type is not string-like. -/
inductive MapError where
  | missingSourceField (field : String)
  | typeError (fn : String)
  | attributeError
deriving DecidableEq, Repr

/-- Column lookup, `input_data[field]`: the value of the first column with
that name, or `none` (pandas raises `KeyError`). -/
def getCol (d : Dataset) (field : String) : Option (List Value) :=
  match d with
  | [] => none
  | (n, col) :: rest => if n = field then some col else getCol rest field

/-- Column lookup that raises: `input_data[field]` with `KeyError` as an error. -/
def getColE (d : Dataset) (field : String) : Except MapError (List Value) :=
  match getCol d field with
  | some col => .ok col
  | none => .error (.missingSourceField field)

/-- Column assignment, `output_data[field] = col`: replace the first column
with that name in place, otherwise append the new column on the right. -/
def setCol (d : Dataset) (field : String) (col : List Value) : Dataset :=
  match d with
  | [] => [(field, col)]
  | (n, c) :: rest =>
      if n = field then (n, col) :: rest else (n, c) :: setCol rest field col

/-- ASCII model of a Python "cased" character (the inputs of this repository
are ASCII; for ASCII Python casedness is exactly letter-hood). -/
def pyCased (c : Char) : Bool := c.isUpper || c.isLower

/-- Python `str.upper()` (ASCII). -/
def pyUpper (s : String) : String := (s.toList.map Char.toUpper).asString

/-- Python `str.lower()` (ASCII). -/
def pyLower (s : String) : String := (s.toList.map Char.toLower).asString

/-- Python `str.isupper()`: at least one cased character, and every cased
character is uppercase. -/
def pyIsUpper (s : String) : Bool :=
  s.toList.any pyCased && s.toList.all (fun c => !pyCased c || c.isUpper)

/-- Python `str.islower()`: at least one cased character, and every cased
character is lowercase. -/
def pyIsLower (s : String) : Bool :=
  s.toList.any pyCased && s.toList.all (fun c => !pyCased c || c.isLower)

/-- Python `str.isnumeric()` (ASCII): nonempty and all digits. -/
def pyIsNumeric (s : String) : Bool :=
  !s.toList.isEmpty && s.toList.all Char.isDigit

/-- Python `str.split(sep)` on a character list: split on every occurrence of
the separator; the empty string splits to `[""]`. -/
def pySplit (sep : Char) : List Char → List (List Char)
  | [] => [[]]
  | c :: cs =>
      let r := pySplit sep cs
      if c = sep then [] :: r
      else
        match r with
        | [] => [[c]]
        | h :: t => (c :: h) :: t

/-- `def extract_domain(email): return email.split('@')[1] if '@' in email else ''`.
Run by `Series.apply` on every element: on text it splits on every `@` and
takes element 1 (the segment between the first and the second `@`); on a
missing cell or a number the Python expression `'@' in email` raises
`TypeError`. -/
def extract_domain : Value → Except MapError Value
  | .text s =>
      if '@' ∈ s.toList then
        .ok (.text ((pySplit '@' s.toList).getD 1 []).asString)
      else .ok (.text "")
  | .num _ => .error (.typeError "extract_domain")
  | .absent => .error (.typeError "extract_domain")

/-- `def age_category(age)`: `< 30 → 'Young'`, `< 45 → 'Middle'`, else
`'Senior'`. Run by `Series.apply` on every element: on a missing cell
(`NaN`) both comparisons are false, so the result is `'Senior'`; comparing
text with `30` raises `TypeError`. -/
def age_category : Value → Except MapError Value
  | .num n =>
      .ok (.text (if n < 30 then "Young" else if n < 45 then "Middle" else "Senior"))
  | .absent => .ok (.text "Senior")
  | .text _ => .error (.typeError "age_category")

/-- `.str.upper()`: text is upper-cased, a missing cell stays missing, a
non-string element of an object column becomes missing. -/
def strUpperV : Value → Value
  | .text s => .text (pyUpper s)
  | _ => .absent

/-- `.str.lower()`. -/
def strLowerV : Value → Value
  | .text s => .text (pyLower s)
  | _ => .absent

/-- `.str[:3]`: first three characters (the whole text when shorter). -/
def firstThreeV : Value → Value
  | .text s => .text (s.toList.take 3).asString
  | _ => .absent

/-- `.str.split('@').str[0]`: the part of the text before its first `@`
(the whole text when there is no `@`). -/
def beforeAtV : Value → Value
  | .text s => .text ((pySplit '@' s.toList).headD []).asString
  | _ => .absent

/-- `.str[0]`: the first character; on the empty text the pandas positional
`.str` getter is out of range and yields a missing cell (`NaN`). -/
def firstLetterV : Value → Value
  | .text s =>
      match s.toList with
      | [] => .absent
      | c :: _ => .text (String.mk [c])
  | _ => .absent

/-- The dtype validation of the pandas `.str` accessor
(`StringMethods._validate`): usable iff the NaN-skipped inferred type of
the column is string-like, mixed or empty — in terms of cells, iff the
column holds at least one text value, or holds no present number at all
(so an empty or all-missing column passes, a purely numeric column such as
int64 `[1, 2]` or float64 `[1.0, NaN]` does not). -/
def strAccessorOk (col : List Value) : Bool :=
  col.any (fun v => match v with | .text _ => true | _ => false) ||
  col.all (fun v => match v with | .num _ => false | _ => true)

/-- A `.str`-accessor method over a column: pandas first validates the
column's inferred type — raising `AttributeError` on a purely numeric
column — and only then maps the per-element function over the cells. -/
def strMap (f : Value → Value) (col : List Value) :
    Except MapError (List Value) :=
  if strAccessorOk col then .ok (col.map f) else .error .attributeError

/-- The eight transform tags handled by the `elif` chain of
`perform_data_mapping`. -/
def knownKinds : List String :=
  ["direct", "uppercase", "lowercase", "first_three_chars",
   "extract_domain", "age_category", "before_at", "first_letter"]

/-- The column-level effect of one recognised branch of the `elif` chain of
`perform_data_mapping`, applied to the looked-up source column: `direct`
copies; the five `.str` kinds go through the accessor (dtype validation,
then per-element mapping); `extract_domain` and `age_category` run their
Python helper on every element through `Series.apply`. -/
def transformColumn (kind : String) (col : List Value) :
    Except MapError (List Value) :=
  if kind = "direct" then .ok col
  else if kind = "uppercase" then strMap strUpperV col
  else if kind = "lowercase" then strMap strLowerV col
  else if kind = "first_three_chars" then strMap firstThreeV col
  else if kind = "extract_domain" then col.mapM extract_domain
  else if kind = "age_category" then col.mapM age_category
  else if kind = "before_at" then strMap beforeAtV col
  else if kind = "first_letter" then strMap firstLetterV col
  else .ok col

/-- One iteration of the mapping loop of `perform_data_mapping`: when the
`transform_rule` tag matches one of the eight `elif` branches, that branch
first evaluates `input_data[source_field]` (a `KeyError` if absent), applies
the transform to the column, and assigns `output_data[target_field]`; a tag
matching no branch falls through the whole chain, so the rule is skipped and
`output_data` is unchanged (its source field is not even looked up). -/
def applyRule (input : Dataset) (output : Dataset) (r : MappingRule) :
    Except MapError Dataset :=
  if r.transform_rule ∈ knownKinds then do
    let col ← getColE input r.source_field
    let col' ← transformColumn r.transform_rule col
    pure (setCol output r.target_field col')
  else .ok output

/-- The core of `perform_data_mapping` (file I/O stripped): starting from the
empty `output_data = pd.DataFrame()`, apply every mapping row in table
order; the first raised error aborts the whole call and no dataset is
returned. -/
def perform_data_mapping (input : Dataset) (spec : List MappingRule) :
    Except MapError Dataset :=
  spec.foldlM (applyRule input) []

/-- The four pattern flags computed by `detect_patterns`. -/
structure Patterns where
  has_email : Bool
  all_uppercase : Bool
  all_lowercase : Bool
  numeric_only : Bool
deriving DecidableEq, Repr

/-- The fields of the per-column analysis dictionary that are read
downstream: `str(df[column].dtype)` and the pattern flags.
(`unique_values` and `sample_values` are also stored by
`analyze_data_structure` but are never read by `suggest_transformation`,
`similar_patterns` or `reverse_engineer_mapping`, so they are omitted.) -/
structure ColumnAnalysis where
  data_type : String
  patterns : Patterns
deriving DecidableEq, Repr

/-- `str(series.dtype)` for a column as pandas `read_excel` types it: any
text value makes the column `object`; an empty column is `object`; an
all-number column is `int64`; numbers with missing cells, or only missing
cells, give `float64`. -/
def dtypeOf (col : List Value) : String :=
  if col.any (fun v => match v with | .text _ => true | _ => false) then "object"
  else if col.isEmpty then "object"
  else if col.any (fun v => match v with | .absent => true | _ => false) then "float64"
  else "int64"

/-- `series.str.contains('@').any()` over an object column: missing cells and
non-string elements give `NaN`, which pandas `any()` skips (treats as
false). -/
def anyTextHolds (p : String → Bool) (col : List Value) : Bool :=
  col.any (fun v => match v with | .text s => p s | _ => false)

/-- `series.str.<pred>().all()` over an object column: missing cells and
non-string elements give `NaN`, which pandas `all()` skips (treats as
true). -/
def allTextHold (p : String → Bool) (col : List Value) : Bool :=
  col.all (fun v => match v with | .text s => p s | _ => true)

/-- `detect_patterns(series)`: the four flags are computed through the `.str`
accessor only when `series.dtype == 'object'`; every other dtype gets all
four flags false. -/
def detect_patterns (col : List Value) : Patterns :=
  if dtypeOf col = "object" then
    { has_email := anyTextHolds (fun s => '@' ∈ s.toList) col
      all_uppercase := allTextHold pyIsUpper col
      all_lowercase := allTextHold pyIsLower col
      numeric_only := allTextHold pyIsNumeric col }
  else
    { has_email := false, all_uppercase := false
      all_lowercase := false, numeric_only := false }

/-- The per-column entry built by `analyze_data_structure` (the fields read
downstream). -/
def analyzeColumn (col : List Value) : ColumnAnalysis :=
  { data_type := dtypeOf col, patterns := detect_patterns col }

/-- `suggest_transformation(column_analysis)`: the `if/elif` precedence chain,
returning descriptive suggestion strings. -/
def suggest_transformation (c : ColumnAnalysis) : String :=
  if c.patterns.has_email then "extract_domain or before_at"
  else if c.data_type = "int64" then "age_category if age-related, otherwise direct"
  else if c.patterns.all_uppercase then "direct or lowercase"
  else if c.patterns.all_lowercase then "direct or uppercase"
  else "direct"

/-- `similar_patterns(source_info, target_info)`: equal dtypes, or both
have `has_email`, or both have `numeric_only`. -/
def similar_patterns (source_info target_info : ColumnAnalysis) : Bool :=
  source_info.data_type = target_info.data_type ||
  (source_info.patterns.has_email && target_info.patterns.has_email) ||
  (source_info.patterns.numeric_only && target_info.patterns.numeric_only)

/-- The inner loop of `reverse_engineer_mapping` for one target column:
iterate over the source columns in their schema order, appending a
suggested row for every similar pair. -/
def reverseInner (inputCols : List (String × ColumnAnalysis))
    (targetCol : String) (targetInfo : ColumnAnalysis)
    (acc : List MappingRule) : List MappingRule :=
  inputCols.foldl
    (fun acc sc =>
      if similar_patterns sc.2 targetInfo then
        acc ++ [⟨sc.1, targetCol, suggest_transformation sc.2⟩]
      else acc) acc

/-- `reverse_engineer_mapping` (profile computation factored out, file I/O
stripped): given the per-column analyses of the input and the target file,
accumulate the `suggested_mappings` list — for each target column in target
schema order, for each source column in source schema order, append a row
whenever `similar_patterns` holds, with `transform_rule` filled in by
`suggest_transformation` of the source column's analysis. -/
def reverse_engineer_mapping (inputCols targetCols : List (String × ColumnAnalysis)) :
    List MappingRule :=
  targetCols.foldl (fun acc tc => reverseInner inputCols tc.1 tc.2 acc) []

/-! ## Helper lemmas -/

theorem getCol_setCol_self (d : Dataset) (f : String) (col : List Value) :
    getCol (setCol d f col) f = some col := by
  induction d with
  | nil => simp [setCol, getCol]
  | cons hd tl ih =>
      obtain ⟨n, c⟩ := hd
      by_cases h : n = f
      · simp [setCol, getCol, h]
      · simp [setCol, getCol, h, ih]

theorem getCol_setCol_ne (d : Dataset) (f f' : String) (col : List Value)
    (h : f' ≠ f) : getCol (setCol d f' col) f = getCol d f := by
  induction d with
  | nil => simp [setCol, getCol, h]
  | cons hd tl ih =>
      obtain ⟨n, c⟩ := hd
      by_cases hn : n = f'
      · subst hn
        simp [setCol, getCol, h, ih]
      · simp [setCol, getCol, hn, ih]

theorem applyRule_unknown (input output : Dataset) (r : MappingRule)
    (h : r.transform_rule ∉ knownKinds) : applyRule input output r = .ok output := by
  simp [applyRule, h]

theorem applyRule_known_missing (input output : Dataset) (r : MappingRule)
    (hk : r.transform_rule ∈ knownKinds)
    (hm : getCol input r.source_field = none) :
    applyRule input output r = .error (.missingSourceField r.source_field) := by
  simp [applyRule, hk, getColE, hm]
  rfl

theorem foldlM_error_abort (input : Dataset) (pre : List MappingRule)
    (r : MappingRule) (rest : List MappingRule) (d : Dataset) (e : MapError)
    (hpre : pre.foldlM (applyRule input) ([] : Dataset) = .ok d)
    (herr : applyRule input d r = .error e) :
    perform_data_mapping input (pre ++ r :: rest) = .error e := by
  unfold perform_data_mapping
  rw [List.foldlM_append, hpre]
  show (r :: rest).foldlM (applyRule input) d = .error e
  rw [List.foldlM_cons, herr]
  rfl

theorem mapM_error_of_mem {α β : Type} (f : α → Except MapError β)
    (l : List α) (x : α) (hx : x ∈ l) (e : MapError) (he : f x = .error e) :
    ∃ e', l.mapM f = .error e' := by
  induction l with
  | nil => cases hx
  | cons a t ih =>
      rw [List.mapM_cons]
      cases hfa : f a with
      | error e₂ => exact ⟨e₂, rfl⟩
      | ok b =>
          rcases List.mem_cons.mp hx with h | h
          · subst h; rw [hfa] at he; cases he
          · obtain ⟨e', he'⟩ := ih h
            refine ⟨e', ?_⟩
            show (t.mapM f >>= fun bs => (pure (b :: bs) : Except MapError (List β))) = .error e'
            rw [he']
            rfl

theorem mapM_ok_get {α β : Type} (f : α → Except MapError β) :
    ∀ (l : List α) (l' : List β), l.mapM f = .ok l' →
      ∀ (i : Nat) (x : α), l.get? i = some x →
        ∃ y, f x = .ok y ∧ l'.get? i = some y := by
  intro l
  induction l with
  | nil => intro l' h i x hx; simp at hx
  | cons a t ih =>
      intro l' h i x hx
      rw [List.mapM_cons] at h
      cases hfa : f a with
      | error e₂ => rw [hfa] at h; cases h
      | ok b =>
          rw [hfa] at h
          cases hmt : t.mapM f with
          | error e₂ =>
              rw [hmt] at h
              cases h
          | ok bs =>
              rw [hmt] at h
              have : l' = b :: bs := by
                have : (Except.ok bs >>= fun bs => pure (b :: bs) : Except MapError (List β)) = .ok l' := h
                cases this
                rfl
              subst this
              cases i with
              | zero =>
                  simp at hx
                  subst hx
                  exact ⟨b, hfa, rfl⟩
              | succ n =>
                  simp only [List.get?] at hx ⊢
                  exact ih bs hmt n x hx

theorem pySplit_ne_nil (sep : Char) (l : List Char) : pySplit sep l ≠ [] := by
  induction l with
  | nil => simp [pySplit]
  | cons c cs ih =>
      unfold pySplit
      by_cases h : c = sep
      · simp [h]
      · simp only [h, if_false]
        cases hr : pySplit sep cs with
        | nil => exact absurd hr ih
        | cons hd tl => simp

theorem pySplit_headD (sep : Char) (l : List Char) :
    (pySplit sep l).headD [] = l.takeWhile (fun c => !(c = sep)) := by
  induction l with
  | nil => simp [pySplit]
  | cons c cs ih =>
      unfold pySplit
      by_cases h : c = sep
      · simp [h, List.takeWhile]
      · simp only [h, if_false]
        cases hr : pySplit sep cs with
        | nil => exact absurd hr (pySplit_ne_nil sep cs)
        | cons hd tl =>
            rw [hr] at ih
            simp only [List.headD] at ih
            simp [List.takeWhile, h, ← ih]

theorem pySplit_getD_one (sep : Char) (l : List Char) (hs : sep ∈ l) :
    (pySplit sep l).getD 1 [] =
      ((l.dropWhile (fun c => !(c = sep))).drop 1).takeWhile (fun c => !(c = sep)) := by
  induction l with
  | nil => cases hs
  | cons c cs ih =>
      by_cases h : c = sep
      · subst h
        cases hr : pySplit c cs with
        | nil => exact absurd hr (pySplit_ne_nil c cs)
        | cons hd tl =>
            have hhead := pySplit_headD c cs
            rw [hr] at hhead
            simp only [List.headD] at hhead
            rw [show pySplit c (c :: cs) = [] :: hd :: tl from by
                  unfold pySplit
                  simp [hr]]
            simp [List.getD, List.dropWhile_cons, hhead]
      · have hcs : sep ∈ cs := by
          rcases List.mem_cons.mp hs with h' | h'
          · exact absurd h'.symm h
          · exact h'
        have ih' := ih hcs
        cases hr : pySplit sep cs with
        | nil => exact absurd hr (pySplit_ne_nil sep cs)
        | cons hd tl =>
            rw [hr] at ih'
            rw [show pySplit sep (c :: cs) = (c :: hd) :: tl from by
                  unfold pySplit
                  simp [h, hr]]
            rw [show List.dropWhile (fun x => !(x = sep)) (c :: cs)
                  = List.dropWhile (fun x => !(x = sep)) cs from by
                  simp [List.dropWhile_cons, h]]
            exact ih'

/-! ## Claim C2 -/

/-- C2 counterexample: a rule whose tag `"bogus"` is not one of the eight
transform kinds is silently ignored — the run succeeds with an empty output
(no `MappingError`), and the output simply omits the target column `"t"`. -/
theorem c2_counterexample :
    perform_data_mapping [("a", [Value.text "x"])]
      [⟨"a", "t", "bogus"⟩] = .ok [] ∧
    getCol ([] : Dataset) "t" = none :=
  ⟨rfl, rfl⟩

/-- C2 (amended): a rule whose `transform_rule` tag is not one of the eight
kinds matches no branch of the `elif` chain, so it is silently skipped: the
output dataset is unchanged (no error is raised and no output column is
produced), and a whole spec of unknown tags yields the empty output. -/
theorem c2_unknown_rule_skipped :
    (∀ (input output : Dataset) (r : MappingRule),
       r.transform_rule ∉ knownKinds → applyRule input output r = .ok output) ∧
    (∀ (input : Dataset) (spec : List MappingRule),
       (∀ r ∈ spec, r.transform_rule ∉ knownKinds) →
       perform_data_mapping input spec = .ok []) := by
  constructor
  · exact applyRule_unknown
  · intro input spec h
    unfold perform_data_mapping
    have aux : ∀ (l : List MappingRule) (d : Dataset),
        (∀ r ∈ l, r.transform_rule ∉ knownKinds) →
        l.foldlM (applyRule input) d = .ok d := by
      intro l
      induction l with
      | nil => intro d _; rfl
      | cons a t ih =>
          intro d hl
          rw [List.foldlM_cons, applyRule_unknown input d a (hl a (List.mem_cons_self a t))]
          show t.foldlM (applyRule input) d = .ok d
          exact ih d (fun r hr => hl r (List.mem_cons_of_mem a hr))
    exact aux spec [] h

/-- C2 witness: the amended theorem applied to a concrete unknown-tag rule. -/
theorem c2_witness :
    applyRule [("a", [Value.text "x"])] [] ⟨"a", "t", "bogus"⟩ = .ok [] ∧
    perform_data_mapping [("a", [Value.text "x"])] [⟨"a", "t", "bogus"⟩] = .ok [] :=
  ⟨c2_unknown_rule_skipped.1 _ _ _ (by decide),
   c2_unknown_rule_skipped.2 _ _ (by decide)⟩

/-! ## Claim C3 -/

/-- C3 counterexample: a spec whose only rule has an unrecognised tag and a
`source_field` that is not in the input schema: the claim demands a
`MissingSourceField` failure, but the run succeeds with an empty output,
because a rule with an unknown tag never looks its source field up. -/
theorem c3_counterexample :
    getCol [("a", [Value.text "x"])] "missing" = none ∧
    perform_data_mapping [("a", [Value.text "x"])]
      [⟨"missing", "t", "bogus"⟩] = .ok [] :=
  ⟨rfl, rfl⟩

/-- C3 (amended): when the engine reaches a rule with a recognised transform
kind whose `source_field` is not a column of the input, it fails with
`missingSourceField` naming that field; and whatever error the first failing
rule raises aborts the whole run — the remaining rules are not executed and
no dataset (not even the columns produced by earlier rules) is returned. -/
theorem c3_missing_source_aborts :
    (∀ (input output : Dataset) (r : MappingRule),
       r.transform_rule ∈ knownKinds → getCol input r.source_field = none →
       applyRule input output r = .error (.missingSourceField r.source_field)) ∧
    (∀ (input : Dataset) (pre : List MappingRule) (r : MappingRule)
       (rest : List MappingRule) (d : Dataset) (e : MapError),
       pre.foldlM (applyRule input) ([] : Dataset) = .ok d →
       applyRule input d r = .error e →
       perform_data_mapping input (pre ++ r :: rest) = .error e) :=
  ⟨applyRule_known_missing, foldlM_error_abort⟩

/-- C3 witness: a two-rule spec whose first rule names a missing source
field; the run aborts with that error and the second rule never runs. -/
theorem c3_witness :
    applyRule [("a", [Value.text "x"])] [] ⟨"missing", "t", "direct"⟩ =
      .error (.missingSourceField "missing") ∧
    perform_data_mapping [("a", [Value.text "x"])]
      [⟨"missing", "t", "direct"⟩, ⟨"a", "u", "direct"⟩] =
      .error (.missingSourceField "missing") := by
  constructor
  · exact c3_missing_source_aborts.1 _ _ _ (by decide) rfl
  · exact c3_missing_source_aborts.2 _ [] ⟨"missing", "t", "direct"⟩
      [⟨"a", "u", "direct"⟩] [] _ rfl
      (c3_missing_source_aborts.1 _ _ _ (by decide) rfl)

/-! ## Claim C5 -/

/-- C5 counterexample: `extract_domain` on `"a@b@c"` returns `"b"`, the
segment between the first and second `@`, not the whole tail `"b@c"` that
the claim promises. -/
theorem c5_counterexample :
    extract_domain (Value.text "a@b@c") = .ok (Value.text "b") ∧
    "b" ≠ "b@c" :=
  ⟨rfl, by decide⟩

/-- C5 (amended): `extract_domain` splits the text on every `@` and returns
element 1 of the split: the substring strictly between the first `@` and the
next `@` (the whole tail only when there is at most one more `@`); with no
`@` at all it returns the empty text. -/
theorem c5_extract_domain_splits_all (s : String) :
    extract_domain (Value.text s) =
      .ok (Value.text (if '@' ∈ s.toList
        then (((s.toList.dropWhile (fun c => !(c = '@'))).drop 1).takeWhile
                (fun c => !(c = '@'))).asString
        else "")) := by
  show (if '@' ∈ s.toList then
          Except.ok (Value.text ((pySplit '@' s.toList).getD 1 []).asString)
        else Except.ok (Value.text "")) = _
  by_cases h : '@' ∈ s.toList
  · rw [if_pos h, if_pos h, pySplit_getD_one '@' s.toList h]
  · rw [if_neg h, if_neg h]

/-! ## Claim C9 -/

/-- C9 counterexample: a `first_letter` rule applied to the empty text
produces a missing cell (`NaN`, since the pandas `.str` positional getter is
out of range), not the empty text the claim promises. -/
theorem c9_counterexample :
    perform_data_mapping [("a", [Value.text ""])]
      [⟨"a", "t", "first_letter"⟩] = .ok [("t", [Value.absent])] ∧
    Value.absent ≠ Value.text "" :=
  ⟨rfl, by decide⟩

/-- C9 (amended): `first_letter` returns the first character of a nonempty
text; on the empty text it yields an Absent cell (not an error and not the
empty text); and the `first_letter` branch succeeds — with that
per-element behaviour — exactly when the column passes the `.str`
accessor's dtype validation (in particular on every column holding a text
value), while a purely numeric column makes the whole apply fail with
`AttributeError`. -/
theorem c9_first_letter_empty_gives_absent :
    (∀ s : String, s.toList ≠ [] →
       firstLetterV (Value.text s) = Value.text (String.mk (s.toList.take 1))) ∧
    firstLetterV (Value.text "") = Value.absent ∧
    (∀ col : List Value, strAccessorOk col = true →
       transformColumn "first_letter" col = .ok (col.map firstLetterV)) ∧
    (∀ col : List Value, strAccessorOk col = false →
       transformColumn "first_letter" col = .error .attributeError) := by
  refine ⟨?_, rfl, ?_, ?_⟩
  · intro s hs
    show (match s.toList with
          | [] => Value.absent
          | c :: _ => Value.text (String.mk [c])) = Value.text (String.mk (s.toList.take 1))
    cases hl : s.toList with
    | nil => exact absurd hl hs
    | cons c cs => rfl
  · intro col hok
    show strMap firstLetterV col = _
    unfold strMap
    rw [hok]
    rfl
  · intro col hbad
    show strMap firstLetterV col = _
    unfold strMap
    rw [hbad]
    rfl

/-- C9 witness: the amended theorem applied to the two-letter text `"ab"`,
to a concrete text column holding the empty text and a missing cell, and
to the purely numeric column `[num 5]` where the branch fails. -/
theorem c9_witness :
    firstLetterV (Value.text "ab") = Value.text (String.mk ("ab".toList.take 1)) ∧
    transformColumn "first_letter" [Value.text "", Value.absent] =
      .ok ([Value.text "", Value.absent].map firstLetterV) ∧
    transformColumn "first_letter" [Value.num 5] = .error .attributeError :=
  ⟨c9_first_letter_empty_gives_absent.1 "ab" (by decide),
   c9_first_letter_empty_gives_absent.2.2.1 [Value.text "", Value.absent] rfl,
   c9_first_letter_empty_gives_absent.2.2.2 [Value.num 5] rfl⟩

/-! ## Claim C1 -/

/-- C1 counterexample: an `age_category` rule over a column whose only cell
is Absent succeeds and produces the text `"Senior"` — the missing cell does
not propagate as Absent (`nan < 30` and `nan < 45` are both false in
Python, so the helper returns `'Senior'`). -/
theorem c1_counterexample :
    perform_data_mapping [("age", [Value.absent])]
      [⟨"age", "group", "age_category"⟩] =
      .ok [("group", [Value.text "Senior"])] ∧
    Value.text "Senior" ≠ Value.absent :=
  ⟨rfl, by decide⟩

theorem strMap_absent (f : Value → Value) (hf : f Value.absent = Value.absent)
    (col : List Value) (i : Nat) (hi : col.get? i = some Value.absent) :
    (strAccessorOk col = true →
       ∃ col', strMap f col = .ok col' ∧ col'.get? i = some Value.absent) ∧
    (strAccessorOk col = false → strMap f col = .error .attributeError) := by
  constructor
  · intro hok
    refine ⟨col.map f, ?_, ?_⟩
    · unfold strMap
      rw [hok]
      rfl
    · rw [List.get?_map, hi]
      simp [hf]
  · intro hbad
    unfold strMap
    rw [hbad]
    rfl

/-- C1 (amended): Absent propagates as Absent through `direct`
unconditionally, and through the five `.str`-accessor kinds (`uppercase`,
`lowercase`, `first_three_chars`, `before_at`, `first_letter`) exactly when
the column passes the accessor's dtype validation (it holds a text value,
or no present number at all) — on a purely numeric column with a missing
cell those five kinds instead fail the whole apply with `AttributeError`;
the two `Series.apply` kinds break the policy outright: `extract_domain`
fails the column with a type error whenever any cell is Absent, and
`age_category` maps an Absent cell to the text `"Senior"`. -/
theorem c1_absent_policy :
    (∀ (col : List Value) (i : Nat), col.get? i = some Value.absent →
       ∃ col', transformColumn "direct" col = .ok col' ∧
         col'.get? i = some Value.absent) ∧
    (∀ kind ∈ (["uppercase", "lowercase", "first_three_chars",
                "before_at", "first_letter"] : List String),
       ∀ (col : List Value) (i : Nat), col.get? i = some Value.absent →
         (strAccessorOk col = true →
            ∃ col', transformColumn kind col = .ok col' ∧
              col'.get? i = some Value.absent) ∧
         (strAccessorOk col = false →
            transformColumn kind col = .error .attributeError)) ∧
    (∀ col : List Value, Value.absent ∈ col →
       ∃ e, transformColumn "extract_domain" col = .error e) ∧
    (∀ (col col' : List Value) (i : Nat),
       transformColumn "age_category" col = .ok col' →
       col.get? i = some Value.absent →
       col'.get? i = some (Value.text "Senior")) := by
  refine ⟨?_, ?_, ?_, ?_⟩
  · intro col i hi
    exact ⟨col, rfl, hi⟩
  · intro kind hk col i hi
    fin_cases hk
    · exact strMap_absent strUpperV rfl col i hi
    · exact strMap_absent strLowerV rfl col i hi
    · exact strMap_absent firstThreeV rfl col i hi
    · exact strMap_absent beforeAtV rfl col i hi
    · exact strMap_absent firstLetterV rfl col i hi
  · intro col hmem
    show ∃ e, col.mapM extract_domain = .error e
    exact mapM_error_of_mem extract_domain col Value.absent hmem
      (.typeError "extract_domain") rfl
  · intro col col' i h hi
    have h' : col.mapM age_category = .ok col' := h
    obtain ⟨y, hy, hcol'⟩ := mapM_ok_get age_category col col' h' i Value.absent hi
    rw [show age_category Value.absent = Except.ok (Value.text "Senior") from rfl] at hy
    cases hy
    exact hcol'

/-- C1 witness: the amended theorem applied to the one-cell Absent column
for `direct` and `uppercase` (the accessor accepts an all-missing column),
to the float64-like column `[num 1, absent]` where `uppercase` raises
`AttributeError`, and to `extract_domain` and `age_category`. -/
theorem c1_witness :
    (∃ col', transformColumn "direct" [Value.absent] = .ok col' ∧
       col'.get? 0 = some Value.absent) ∧
    (∃ col', transformColumn "uppercase" [Value.absent] = .ok col' ∧
       col'.get? 0 = some Value.absent) ∧
    transformColumn "uppercase" [Value.num 1, Value.absent] =
      .error .attributeError ∧
    (∃ e, transformColumn "extract_domain" [Value.absent] = .error e) ∧
    ([Value.text "Senior"] : List Value).get? 0 = some (Value.text "Senior") :=
  ⟨c1_absent_policy.1 [Value.absent] 0 rfl,
   (c1_absent_policy.2.1 "uppercase" (by decide) [Value.absent] 0 rfl).1 rfl,
   (c1_absent_policy.2.1 "uppercase" (by decide) [Value.num 1, Value.absent] 1 rfl).2 rfl,
   c1_absent_policy.2.2.1 [Value.absent] (by decide),
   c1_absent_policy.2.2.2 [Value.absent] [Value.text "Senior"] 0 rfl rfl⟩

/-! ## Claim C4 -/

theorem foldlM_ok_split (input : Dataset) (pre rest : List MappingRule) (out : Dataset)
    (h : (pre ++ rest).foldlM (applyRule input) ([] : Dataset) = .ok out) :
    ∃ d, pre.foldlM (applyRule input) ([] : Dataset) = .ok d ∧
         rest.foldlM (applyRule input) d = .ok out := by
  rw [List.foldlM_append] at h
  cases hpre : pre.foldlM (applyRule input) ([] : Dataset) with
  | error e =>
      rw [hpre] at h
      have h' : (Except.error e : Except MapError Dataset) = .ok out := h
      cases h'
  | ok d =>
      rw [hpre] at h
      exact ⟨d, rfl, h⟩

theorem applyRule_ok_preserves (input d d' : Dataset) (r : MappingRule) (t : String)
    (h : applyRule input d r = .ok d')
    (ht : r.transform_rule ∈ knownKinds → r.target_field ≠ t) :
    getCol d' t = getCol d t := by
  by_cases hk : r.transform_rule ∈ knownKinds
  · unfold applyRule at h
    rw [if_pos hk] at h
    cases hc : getColE input r.source_field with
    | error e =>
        rw [hc] at h
        have h' : (Except.error e : Except MapError Dataset) = .ok d' := h
        cases h'
    | ok col =>
        rw [hc] at h
        have h₂ : (transformColumn r.transform_rule col >>= fun col' =>
            (pure (setCol d r.target_field col') : Except MapError Dataset)) = .ok d' := h
        cases htc : transformColumn r.transform_rule col with
        | error e =>
            rw [htc] at h₂
            have h' : (Except.error e : Except MapError Dataset) = .ok d' := h₂
            cases h'
        | ok col' =>
            rw [htc] at h₂
            have h' : (Except.ok (setCol d r.target_field col') :
                Except MapError Dataset) = .ok d' := h₂
            cases h'
            exact getCol_setCol_ne d t r.target_field col' (ht hk)
  · rw [applyRule_unknown input d r hk] at h
    cases h
    rfl

theorem foldlM_ok_preserves (input : Dataset) (t : String) :
    ∀ (l : List MappingRule) (d out : Dataset),
      l.foldlM (applyRule input) d = .ok out →
      (∀ r ∈ l, r.transform_rule ∈ knownKinds → r.target_field ≠ t) →
      getCol out t = getCol d t := by
  intro l
  induction l with
  | nil =>
      intro d out h _
      have h' : (Except.ok d : Except MapError Dataset) = .ok out := h
      cases h'
      rfl
  | cons a l ih =>
      intro d out h hl
      rw [List.foldlM_cons] at h
      cases ha : applyRule input d a with
      | error e =>
          rw [ha] at h
          have h' : (Except.error e : Except MapError Dataset) = .ok out := h
          cases h'
      | ok d₁ =>
          rw [ha] at h
          have h' : l.foldlM (applyRule input) d₁ = .ok out := h
          rw [ih d₁ out h' (fun r hr => hl r (List.mem_cons_of_mem a hr))]
          exact applyRule_ok_preserves input d d₁ a t ha (hl a (List.mem_cons_self a l))

/-- C4 (confirmed): when a spec is `pre ++ r :: suf`, `r` has a recognised
kind, no later rule (with a recognised kind) writes `r`'s target field, and
the whole run succeeds, the output column named `r.target_field` is exactly
the transform of `r`'s own source column: every column any earlier rule (in
`pre`) produced under that name is fully overwritten — last write wins. -/
theorem c4_last_write_wins (input : Dataset) (pre suf : List MappingRule)
    (r : MappingRule) (out : Dataset)
    (hk : r.transform_rule ∈ knownKinds)
    (hsuf : ∀ r' ∈ suf, r'.transform_rule ∈ knownKinds → r'.target_field ≠ r.target_field)
    (hrun : perform_data_mapping input (pre ++ r :: suf) = .ok out) :
    ∃ col col', getCol input r.source_field = some col ∧
      transformColumn r.transform_rule col = .ok col' ∧
      getCol out r.target_field = some col' := by
  unfold perform_data_mapping at hrun
  obtain ⟨d, hpre, hrest⟩ := foldlM_ok_split input pre (r :: suf) out hrun
  rw [List.foldlM_cons] at hrest
  cases ha : applyRule input d r with
  | error e =>
      rw [ha] at hrest
      have h' : (Except.error e : Except MapError Dataset) = .ok out := hrest
      cases h'
  | ok d₁ =>
      rw [ha] at hrest
      have hrest' : suf.foldlM (applyRule input) d₁ = .ok out := hrest
      unfold applyRule at ha
      rw [if_pos hk] at ha
      cases hc : getCol input r.source_field with
      | none =>
          rw [show getColE input r.source_field =
                .error (.missingSourceField r.source_field) from by
              unfold getColE; rw [hc]] at ha
          have h' : (Except.error (MapError.missingSourceField r.source_field) :
              Except MapError Dataset) = .ok d₁ := ha
          cases h'
      | some col =>
          rw [show getColE input r.source_field = .ok col from by
              unfold getColE; rw [hc]] at ha
          have ha₂ : (transformColumn r.transform_rule col >>= fun col' =>
              (pure (setCol d r.target_field col') : Except MapError Dataset)) = .ok d₁ := ha
          cases htc : transformColumn r.transform_rule col with
          | error e =>
              rw [htc] at ha₂
              have h' : (Except.error e : Except MapError Dataset) = .ok d₁ := ha₂
              cases h'
          | ok col' =>
              rw [htc] at ha₂
              have h' : (Except.ok (setCol d r.target_field col') :
                  Except MapError Dataset) = .ok d₁ := ha₂
              cases h'
              refine ⟨col, col', rfl, htc, ?_⟩
              rw [foldlM_ok_preserves input r.target_field suf _ out hrest' hsuf]
              exact getCol_setCol_self d r.target_field col'

/-- C4 witness: two rules both writing column `"T"` — the output holds the
upper-cased `"Y"` of the second rule's source, not the `"x"` of the first. -/
theorem c4_witness : ∃ col col',
    getCol [("a", [Value.text "x"]), ("b", [Value.text "y"])] "b" = some col ∧
    transformColumn "uppercase" col = .ok col' ∧
    getCol [("T", [Value.text "Y"])] "T" = some col' :=
  c4_last_write_wins [("a", [Value.text "x"]), ("b", [Value.text "y"])]
    [⟨"a", "T", "direct"⟩] [] ⟨"b", "T", "uppercase"⟩ [("T", [Value.text "Y"])]
    (by decide) (by decide) rfl

/-! ## Claim C6 -/

theorem reverseInner_eq (tc : String) (ti : ColumnAnalysis) :
    ∀ (inputCols : List (String × ColumnAnalysis)) (acc : List MappingRule),
      reverseInner inputCols tc ti acc =
        acc ++ (inputCols.filter (fun sc => similar_patterns sc.2 ti)).map
          (fun sc => ⟨sc.1, tc, suggest_transformation sc.2⟩) := by
  intro inputCols
  induction inputCols with
  | nil => intro acc; simp [reverseInner]
  | cons a l ih =>
      intro acc
      have hstep : reverseInner (a :: l) tc ti acc =
          reverseInner l tc ti (if similar_patterns a.2 ti then
            acc ++ [⟨a.1, tc, suggest_transformation a.2⟩] else acc) := rfl
      rw [hstep]
      by_cases h : similar_patterns a.2 ti = true
      · rw [if_pos h, ih]
        simp [List.filter_cons, h]
      · rw [if_neg h, ih]
        simp [List.filter_cons, h]

theorem reverse_engineer_eq_flatMap
    (inputCols targetCols : List (String × ColumnAnalysis)) :
    reverse_engineer_mapping inputCols targetCols =
      targetCols.flatMap (fun tc =>
        (inputCols.filter (fun sc => similar_patterns sc.2 tc.2)).map
          (fun sc => ⟨sc.1, tc.1, suggest_transformation sc.2⟩)) := by
  unfold reverse_engineer_mapping
  have aux : ∀ (ts : List (String × ColumnAnalysis)) (acc : List MappingRule),
      ts.foldl (fun acc tc => reverseInner inputCols tc.1 tc.2 acc) acc =
        acc ++ ts.flatMap (fun tc =>
          (inputCols.filter (fun sc => similar_patterns sc.2 tc.2)).map
            (fun sc => ⟨sc.1, tc.1, suggest_transformation sc.2⟩)) := by
    intro ts
    induction ts with
    | nil => intro acc; simp
    | cons t ts ih =>
        intro acc
        rw [List.foldl_cons, reverseInner_eq, ih, List.flatMap_cons,
          List.append_assoc]
  simpa using aux targetCols []

/-- C6 (confirmed): the inferencer emits one row for exactly every similar
(source, target) pair — `data_type` equal, or both `has_email`, or both
`numeric_only` — ordered target column first (target schema order), source
column within (source schema order), with no deduplication; it never fails,
and when no pair is similar the result is the empty list. -/
theorem c6_inferencer (inputCols targetCols : List (String × ColumnAnalysis)) :
    (reverse_engineer_mapping inputCols targetCols =
      targetCols.flatMap (fun tc =>
        (inputCols.filter (fun sc => similar_patterns sc.2 tc.2)).map
          (fun sc => ⟨sc.1, tc.1, suggest_transformation sc.2⟩))) ∧
    (∀ r : MappingRule, r ∈ reverse_engineer_mapping inputCols targetCols ↔
      ∃ tc ∈ targetCols, ∃ sc ∈ inputCols, similar_patterns sc.2 tc.2 = true ∧
        r = ⟨sc.1, tc.1, suggest_transformation sc.2⟩) ∧
    ((∀ tc ∈ targetCols, ∀ sc ∈ inputCols, similar_patterns sc.2 tc.2 = false) →
      reverse_engineer_mapping inputCols targetCols = []) := by
  refine ⟨reverse_engineer_eq_flatMap inputCols targetCols, ?_, ?_⟩
  · intro r
    rw [reverse_engineer_eq_flatMap]
    simp only [List.mem_flatMap, List.mem_map, List.mem_filter]
    constructor
    · rintro ⟨tc, htc, sc, ⟨hsc, hsim⟩, hr⟩
      exact ⟨tc, htc, sc, hsc, hsim, hr.symm⟩
    · rintro ⟨tc, htc, sc, hsc, hsim, hr⟩
      exact ⟨tc, htc, sc, ⟨hsc, hsim⟩, hr.symm⟩
  · intro h
    rw [reverse_engineer_eq_flatMap]
    apply List.flatMap_eq_nil_iff.mpr
    intro tc htc
    rw [List.filter_eq_nil_iff.mpr, List.map_nil]
    intro sc hsc
    simp [h tc htc sc hsc]

/-- C6 witness: two numeric-typed columns produce exactly one candidate;
two dissimilar columns produce the empty (non-error) result. -/
theorem c6_witness :
    (⟨"uid", "id", "age_category if age-related, otherwise direct"⟩ : MappingRule) ∈
      reverse_engineer_mapping
        [("uid", ⟨"int64", ⟨false, false, false, false⟩⟩)]
        [("id", ⟨"int64", ⟨false, false, false, false⟩⟩)] ∧
    reverse_engineer_mapping
      [("a", ⟨"object", ⟨false, false, false, false⟩⟩)]
      [("t", ⟨"int64", ⟨false, false, false, false⟩⟩)] = [] :=
  ⟨((c6_inferencer _ _).2.1 _).mpr
      ⟨("id", ⟨"int64", ⟨false, false, false, false⟩⟩), by decide,
       ("uid", ⟨"int64", ⟨false, false, false, false⟩⟩), by decide, by decide, by decide⟩,
   (c6_inferencer _ _).2.2 (by decide)⟩

/-! ## Claim C7 -/

/-- C7 counterexample: a numeric column with a missing cell is typed
`float64` by pandas; its profile (no pattern flags) is numeric but not
`int64`, and the advisor suggests plain `"direct"`, not the age-category
suggestion the claim promises for every numeric data type. -/
theorem c7_counterexample :
    dtypeOf [Value.num 1, Value.absent] = "float64" ∧
    suggest_transformation ⟨"float64", ⟨false, false, false, false⟩⟩ = "direct" ∧
    "direct" ≠ "age_category if age-related, otherwise direct" :=
  ⟨rfl, rfl, by decide⟩

/-- C7 (amended): the advisor is a fixed top-to-bottom precedence chain —
`has_email` wins over everything (even an integer dtype or uniform casing),
then the dtype test, then `all_uppercase`, then `all_lowercase`, then the
default — but the numeric case fires exactly for dtype `"int64"`: a
`float64` numeric column without other flags falls through to `"direct"`. -/
theorem c7_advisor_precedence (c : ColumnAnalysis) :
    (c.patterns.has_email = true →
       suggest_transformation c = "extract_domain or before_at") ∧
    (c.patterns.has_email = false → c.data_type = "int64" →
       suggest_transformation c = "age_category if age-related, otherwise direct") ∧
    (c.patterns.has_email = false → c.data_type ≠ "int64" →
       c.patterns.all_uppercase = true →
       suggest_transformation c = "direct or lowercase") ∧
    (c.patterns.has_email = false → c.data_type ≠ "int64" →
       c.patterns.all_uppercase = false → c.patterns.all_lowercase = true →
       suggest_transformation c = "direct or uppercase") ∧
    (c.patterns.has_email = false → c.data_type ≠ "int64" →
       c.patterns.all_uppercase = false → c.patterns.all_lowercase = false →
       suggest_transformation c = "direct") := by
  refine ⟨?_, ?_, ?_, ?_, ?_⟩
  · intro h1
    simp [suggest_transformation, h1]
  · intro h1 h2
    simp [suggest_transformation, h1, h2]
  · intro h1 h2 h3
    simp [suggest_transformation, h1, h2, h3]
  · intro h1 h2 h3 h4
    simp [suggest_transformation, h1, h2, h3, h4]
  · intro h1 h2 h3 h4
    simp [suggest_transformation, h1, h2, h3, h4]

/-- C7 witness: the five precedence cases at concrete profiles; in the first
one the email flag beats both an integer dtype and uniform casing. -/
theorem c7_witness :
    suggest_transformation ⟨"int64", ⟨true, true, true, false⟩⟩ =
      "extract_domain or before_at" ∧
    suggest_transformation ⟨"int64", ⟨false, true, false, false⟩⟩ =
      "age_category if age-related, otherwise direct" ∧
    suggest_transformation ⟨"object", ⟨false, true, false, false⟩⟩ =
      "direct or lowercase" ∧
    suggest_transformation ⟨"object", ⟨false, false, true, false⟩⟩ =
      "direct or uppercase" ∧
    suggest_transformation ⟨"object", ⟨false, false, false, true⟩⟩ = "direct" :=
  ⟨(c7_advisor_precedence _).1 rfl,
   (c7_advisor_precedence _).2.1 rfl rfl,
   (c7_advisor_precedence _).2.2.1 rfl (by decide) rfl,
   (c7_advisor_precedence _).2.2.2.1 rfl (by decide) rfl rfl,
   (c7_advisor_precedence _).2.2.2.2 rfl (by decide) rfl rfl⟩

/-! ## Claim C8 -/

theorem allTextHold_iff (p : String → Bool) (col : List Value) :
    allTextHold p col = true ↔ ∀ s : String, Value.text s ∈ col → p s = true := by
  unfold allTextHold
  rw [List.all_eq_true]
  constructor
  · intro h s hs
    exact h (Value.text s) hs
  · intro h v hv
    cases v with
    | text s => exact h s hv
    | num n => rfl
    | absent => rfl

theorem pyCasedAll_iff (q : Char → Bool) (s : String) :
    (s.toList.any pyCased && s.toList.all (fun c => !pyCased c || q c)) = true ↔
      ((∃ ch ∈ s.toList, pyCased ch = true) ∧
       ∀ ch ∈ s.toList, pyCased ch = true → q ch = true) := by
  rw [Bool.and_eq_true, List.any_eq_true, List.all_eq_true]
  constructor
  · rintro ⟨⟨ch, hch, hc⟩, hall⟩
    refine ⟨⟨ch, hch, hc⟩, ?_⟩
    intro ch' hch' hcased
    have h' := hall ch' hch'
    simp [hcased] at h'
    exact h'
  · rintro ⟨⟨ch, hch, hc⟩, hall⟩
    refine ⟨⟨ch, hch, hc⟩, ?_⟩
    intro ch' hch'
    cases hc' : pyCased ch' with
    | false => simp [hc']
    | true => simp [hc', hall ch' hch' hc']

/-- C8 counterexample: the caseless text `"123"` is unchanged by
upper-casing (and by lower-casing), yet a column holding it has
`all_uppercase = false` (and `all_lowercase = false`), because Python's
`isupper`/`islower` require at least one cased character. -/
theorem c8_counterexample :
    (detect_patterns [Value.text "123"]).all_uppercase = false ∧
    pyUpper "123" = "123" ∧
    (detect_patterns [Value.text "123"]).all_lowercase = false ∧
    pyLower "123" = "123" :=
  ⟨rfl, rfl, rfl, rfl⟩

/-- C8 (amended): `all_uppercase` is true iff the column is object-typed
(it holds at least one text value, or is empty) and every text value in it
satisfies Python `isupper` — at least one cased character, with every cased
character uppercase — missing cells and non-text entries being skipped; it
is vacuously true for an empty column but false for an absent-only column
(typed `float64`, so the `.str` path is never taken), and a caseless text
such as `"123"` makes it false; symmetric for `all_lowercase`. -/
theorem c8_case_flags (col : List Value) :
    ((detect_patterns col).all_uppercase = true ↔
      (dtypeOf col = "object" ∧ ∀ s : String, Value.text s ∈ col →
        ((∃ ch ∈ s.toList, pyCased ch = true) ∧
         ∀ ch ∈ s.toList, pyCased ch = true → ch.isUpper = true))) ∧
    ((detect_patterns col).all_lowercase = true ↔
      (dtypeOf col = "object" ∧ ∀ s : String, Value.text s ∈ col →
        ((∃ ch ∈ s.toList, pyCased ch = true) ∧
         ∀ ch ∈ s.toList, pyCased ch = true → ch.isLower = true))) ∧
    (detect_patterns ([] : List Value)).all_uppercase = true ∧
    (detect_patterns [Value.absent]).all_uppercase = false := by
  refine ⟨?_, ?_, rfl, rfl⟩
  · unfold detect_patterns
    by_cases hd : dtypeOf col = "object"
    · rw [if_pos hd]
      show allTextHold pyIsUpper col = true ↔ _
      rw [allTextHold_iff]
      constructor
      · intro h
        exact ⟨hd, fun s hs => (pyCasedAll_iff Char.isUpper s).mp (h s hs)⟩
      · rintro ⟨_, h⟩ s hs
        exact (pyCasedAll_iff Char.isUpper s).mpr (h s hs)
    · rw [if_neg hd]
      show false = true ↔ _
      simp [hd]
  · unfold detect_patterns
    by_cases hd : dtypeOf col = "object"
    · rw [if_pos hd]
      show allTextHold pyIsLower col = true ↔ _
      rw [allTextHold_iff]
      constructor
      · intro h
        exact ⟨hd, fun s hs => (pyCasedAll_iff Char.isLower s).mp (h s hs)⟩
      · rintro ⟨_, h⟩ s hs
        exact (pyCasedAll_iff Char.isLower s).mpr (h s hs)
    · rw [if_neg hd]
      show false = true ↔ _
      simp [hd]

/-- C8 witness: the characterisation applied to concrete columns — an
upper-case text with a missing cell, and a lower-case text. -/
theorem c8_witness :
    (detect_patterns [Value.text "ABC", Value.absent]).all_uppercase = true ∧
    (detect_patterns [Value.text "abc"]).all_lowercase = true := by
  constructor
  · apply ((c8_case_flags [Value.text "ABC", Value.absent]).1).mpr
    refine ⟨rfl, ?_⟩
    intro s hs
    simp at hs
    subst hs
    decide
  · apply ((c8_case_flags [Value.text "abc"]).2.1).mpr
    refine ⟨rfl, ?_⟩
    intro s hs
    simp at hs
    subst hs
    decide

/-! ## Claim C10 -/

/-- A profile triggers a non-default advisor case: email flag, integer
dtype, or a uniform-casing flag. -/
def nonDefaultAnalysis (c : ColumnAnalysis) : Bool :=
  c.patterns.has_email || (c.data_type == "int64") ||
  c.patterns.all_uppercase || c.patterns.all_lowercase

/-- C10 (confirmed): a profile triggering a non-default advisor case is
suggested one of the four multi-option descriptive strings, none of which
belongs to the eight-tag transform vocabulary; the default case alone yields
the valid tag `"direct"`; and every candidate row the inferencer emits
carries, verbatim, the advisor's suggestion for its source column's
profile. -/
theorem c10_inferred_rules_not_in_vocabulary :
    (∀ c : ColumnAnalysis, nonDefaultAnalysis c = true →
       suggest_transformation c ∈ (["extract_domain or before_at",
         "age_category if age-related, otherwise direct",
         "direct or lowercase", "direct or uppercase"] : List String) ∧
       suggest_transformation c ∉ knownKinds) ∧
    (∀ c : ColumnAnalysis, nonDefaultAnalysis c = false →
       suggest_transformation c = "direct") ∧
    ("direct" : String) ∈ knownKinds ∧
    (∀ (inputCols targetCols : List (String × ColumnAnalysis)) (r : MappingRule),
       r ∈ reverse_engineer_mapping inputCols targetCols →
       ∃ si, (r.source_field, si) ∈ inputCols ∧
         r.transform_rule = suggest_transformation si) := by
  refine ⟨?_, ?_, by decide, ?_⟩
  · intro c h
    unfold suggest_transformation
    split_ifs with h1 h2 h3 h4
    · exact ⟨by decide, by decide⟩
    · exact ⟨by decide, by decide⟩
    · exact ⟨by decide, by decide⟩
    · exact ⟨by decide, by decide⟩
    · exfalso
      simp only [nonDefaultAnalysis, Bool.or_eq_true, beq_iff_eq] at h
      rcases h with ((he | hd) | hu) | hl
      · exact h1 he
      · exact h2 hd
      · exact h3 hu
      · exact h4 hl
  · intro c h
    simp only [nonDefaultAnalysis, Bool.or_eq_false_iff, beq_eq_false_iff_ne] at h
    simp [suggest_transformation, h.1.1.1, h.1.1.2, h.1.2, h.2]
  · intro inputCols targetCols r hr
    rw [reverse_engineer_eq_flatMap] at hr
    simp only [List.mem_flatMap, List.mem_map, List.mem_filter] at hr
    obtain ⟨tc, htc, sc, ⟨hsc, hsim⟩, hr⟩ := hr
    subst hr
    exact ⟨sc.2, hsc, rfl⟩

/-- C10 witness: an email-flagged profile gets the out-of-vocabulary
two-option string, a flagless text profile gets `"direct"`, and the
concrete candidate emitted for two integer columns carries the advisor's
descriptive string for its source profile. -/
theorem c10_witness :
    (suggest_transformation ⟨"object", ⟨true, false, false, false⟩⟩ ∈
       (["extract_domain or before_at",
         "age_category if age-related, otherwise direct",
         "direct or lowercase", "direct or uppercase"] : List String) ∧
     suggest_transformation ⟨"object", ⟨true, false, false, false⟩⟩ ∉ knownKinds) ∧
    suggest_transformation ⟨"object", ⟨false, false, false, true⟩⟩ = "direct" ∧
    (∃ si, ((⟨"uid", "id", "age_category if age-related, otherwise direct"⟩ :
        MappingRule).source_field, si) ∈
        [("uid", (⟨"int64", ⟨false, false, false, false⟩⟩ : ColumnAnalysis))] ∧
      (⟨"uid", "id", "age_category if age-related, otherwise direct"⟩ :
        MappingRule).transform_rule = suggest_transformation si) :=
  ⟨c10_inferred_rules_not_in_vocabulary.1 ⟨"object", ⟨true, false, false, false⟩⟩ rfl,
   c10_inferred_rules_not_in_vocabulary.2.1 ⟨"object", ⟨false, false, false, true⟩⟩ rfl,
   c10_inferred_rules_not_in_vocabulary.2.2.2
     [("uid", ⟨"int64", ⟨false, false, false, false⟩⟩)]
     [("id", ⟨"int64", ⟨false, false, false, false⟩⟩)]
     ⟨"uid", "id", "age_category if age-related, otherwise direct"⟩ (by decide)⟩
